import Mathlib

/-!
Verification of the DIGGS schema compatibility engine
(version_compatibility/fixed_resolver.py and
version_compatibility/diggs_compatibility_analyzer.py) against its
natural-language specification.  Python dictionaries and OrderedDicts are
embedded as association lists, machine strings as String, and the bounded
recursions as structural recursion on the fuel forced by the source's own
depth guards.  The Python string primitives used by the engine (replace,
startswith, split, isdigit, int) are reimplemented structurally over the
character list so that every definition evaluates inside the kernel.
-/

/-- Python str.replace for a non-empty pattern: replace all non-overlapping
occurrences, scanning left to right.  Fuel is the input length; each step
consumes at least one character, so the fuel never runs out. -/
def replaceFuel (pat rep : List Char) : Nat → List Char → List Char
  | 0, s => s
  | _ + 1, [] => []
  | fuel + 1, c :: rest =>
    if !pat.isEmpty && pat.isPrefixOf (c :: rest) then
      rep ++ replaceFuel pat rep fuel (rest.drop (pat.length - 1))
    else c :: replaceFuel pat rep fuel rest

/-- Python s.replace(pat, rep). -/
def strReplace (s pat rep : String) : String :=
  ⟨replaceFuel pat.data rep.data s.data.length s.data⟩

/-- Python s.startswith(pre). -/
def strStartsWith (s pre : String) : Bool :=
  pre.data.isPrefixOf s.data

/-- Python `c in s` for a single character. -/
def strContainsChar (s : String) (c : Char) : Bool :=
  s.data.contains c

/-- Python s.split(sep) for a one-character separator. -/
def splitChar (c : Char) : List Char → List (List Char)
  | [] => [[]]
  | x :: rest =>
    let r := splitChar c rest
    if x == c then [] :: r
    else
      match r with
      | [] => [[x]]
      | h :: t => (x :: h) :: t

/-- Python s.split(':')[-1]. -/
def lastColonSegment (s : String) : String :=
  ⟨((splitChar ':' s.data).getLastD s.data)⟩

/-- Python s.split(':')[0]. -/
def firstColonSegment (s : String) : String :=
  ⟨((splitChar ':' s.data).headD s.data)⟩

/-- Python s.split(':', 1)[1] when the string contains a colon. -/
def afterFirstColonAux : List Char → Option (List Char)
  | [] => none
  | x :: rest => if x == ':' then some rest else afterFirstColonAux rest

/-- The bare name used by is_builtin_type: the part after the first colon
when there is one, the whole string otherwise. -/
def bareAfterColon (s : String) : String :=
  match afterFirstColonAux s.data with
  | some r => ⟨r⟩
  | none => s

/-- Python str.isdigit (ASCII digits, as cardinality tokens are). -/
def pyIsDigit (s : String) : Bool :=
  !s.data.isEmpty && s.data.all (fun c => c.isDigit)

/-- Decimal value of a digit string (Python int on an isdigit string). -/
def digitsToNat : List Char → Nat → Nat
  | [], acc => acc
  | c :: rest, acc => digitsToNat rest (acc * 10 + (c.toNat - 48))

/-- Python int(s) for the digit strings the analyzer feeds it. -/
def pyInt (s : String) : Nat :=
  digitsToNat s.data 0

/-- Lexicographic comparison on code points, as Python sorted uses. -/
def charListLe : List Char → List Char → Bool
  | [], _ => true
  | _ :: _, [] => false
  | a :: as, b :: bs =>
    if a.toNat < b.toNat then true
    else if b.toNat < a.toNat then false
    else charListLe as bs

/-- Insertion into a sorted list of strings. -/
def insertSorted (s : String) : List String → List String
  | [] => [s]
  | t :: ts => if charListLe s.data t.data then s :: t :: ts else t :: insertSorted s ts

/-- Python sorted on a list of strings. -/
def sortStrings (l : List String) : List String :=
  l.foldr insertSorted []

/-- Element entry as built by extract_elements_from_node
(fixed_resolver.py lines 96-101): name (or dereferenced ref), cleaned type
reference, and the raw minOccurs / maxOccurs tokens (defaults "1"). -/
structure ElemInfo where
  name : String
  ty : String
  minOccurs : String
  maxOccurs : String
  deriving DecidableEq, Repr

/-- Attribute entry as built by extract_local_attributes / resolve_attribute_ref
(fixed_resolver.py lines 138-171). -/
structure AttrInfo where
  name : String
  ty : String
  use : String
  deriving DecidableEq, Repr

/-- First-match association-list lookup, modelling dict.get on registries
whose keys are unique. -/
def lookupA : List (String × α) → String → Option α
  | [], _ => none
  | p :: m, k => if p.1 == k then some p.2 else lookupA m k

/-- The key list of an association list (dict.keys). -/
def keysA (m : List (String × α)) : List String :=
  m.map (fun p => p.1)

/-- Whether a key is present (Python `k in d`). -/
def hasKey (m : List (String × α)) (k : String) : Bool :=
  m.any (fun p => p.1 == k)

/-- OrderedDict assignment d[k] = v: overwrite in place when the key exists
(the entry keeps its original position), append otherwise. -/
def odInsert : List (String × α) → String → α → List (String × α)
  | [], k, v => [(k, v)]
  | p :: m, k, v => if p.1 == k then (k, v) :: m else p :: odInsert m k v

/-- Folding a list of records into an OrderedDict keyed by `key`, as the
local-overlay loops of resolve_content_model do (lines 218-223). -/
def odUpdateWith (key : β → String) (m : List (String × β)) (xs : List β) :
    List (String × β) :=
  xs.foldl (fun acc x => odInsert acc (key x) x) m

/-- clean_type_name (fixed_resolver.py lines 64-68): strip every "diggs:". -/
def clean_type_name (s : String) : String :=
  strReplace s "diggs:" ""

/-- Python truthiness of an optional string (None and "" are falsy). -/
def optTruthy : Option String → Bool
  | some s => s != ""
  | none => false

/-- A complexType as consumed by resolve_content_model: the outcomes of
get_base_type_name (base, already passed through clean_type_name),
extract_local_elements (elements flattened out of the nested
sequence/choice groups, plus the isExtension flag) and
extract_local_attributes are precomputed per type, which is sound because
the registries and the global attribute table are fixed for a run. -/
structure CTDef where
  base : Option String
  isExtension : Bool
  localElements : List ElemInfo
  localAttributes : List AttrInfo
  deriving DecidableEq, Repr

/-- A resolved content model: ordered element map and ordered attribute map. -/
abbrev CM := List (String × ElemInfo) × List (String × AttrInfo)

/-- Lines 199-225 of fixed_resolver.py: overlay the local elements and
attributes of ct onto the inherited base pair, via OrderedDict assignment. -/
def resolveAssemble (ct : CTDef) (basePair : CM) : CM :=
  (odUpdateWith ElemInfo.name basePair.1 ct.localElements,
   odUpdateWith AttrInfo.name basePair.2 ct.localAttributes)

/-- One unfolding of resolve_content_model (fixed_resolver.py lines 173-225),
with the recursive occurrences abstracted as `recur`; both recursive calls
pass visited.copy() after visited.add(type_name), and depth + 1. -/
def resolveBody (recur : String → List String → Nat → CM)
    (reg : List (String × CTDef)) (typeName : String)
    (visited : List String) (depth : Nat) : CM :=
  if depth > 20 then ([], [])
  else if visited.contains typeName then ([], [])
  else if strStartsWith typeName "xs:" || typeName == "" then ([], [])
  else
    match lookupA reg (strReplace (strReplace typeName "gml:" "") "diggs:" "") with
    | none => ([], [])
    | some ct =>
      resolveAssemble ct
        (if ct.isExtension && optTruthy ct.base then
          recur (ct.base.getD "") (typeName :: visited) (depth + 1)
        else if optTruthy ct.base && !ct.isExtension then
          (([] : List (String × ElemInfo)),
            (recur (ct.base.getD "") (typeName :: visited) (depth + 1)).2)
        else ([], []))

/-- Fuel-indexed resolver.  The fuel-0 result coincides with the source's
depth > 20 guard result, so running with fuel 21 - depth reproduces
resolve_content_model exactly at every depth. -/
def resolveGo : Nat → List (String × CTDef) → String → List String → Nat → CM
  | 0, _, _, _, _ => ([], [])
  | fuel + 1, reg, typeName, visited, depth =>
    resolveBody (fun b v d => resolveGo fuel reg b v d) reg typeName visited depth

/-- resolve_content_model (fixed_resolver.py lines 173-225).  `visited` is the
per-path visited set and `depth` the recursion depth; the top-level call of
the source uses visited = {} and depth = 0. -/
def resolve_content_model (reg : List (String × CTDef)) (typeName : String)
    (visited : List String) (depth : Nat) : CM :=
  resolveGo (21 - depth) reg typeName visited depth

/-- The last record in xs whose key is n: the one whose value an OrderedDict
overlay ends up storing under n. -/
def lastWithKey (key : β → String) : List β → String → Option β
  | [], _ => none
  | x :: xs, n =>
    match lastWithKey key xs n with
    | some y => some y
    | none => if key x == n then some x else none

theorem lookupA_odInsert_self (m : List (String × α)) (k : String) (v : α) :
    lookupA (odInsert m k v) k = some v := by
  induction m with
  | nil => simp [odInsert, lookupA]
  | cons p m ih =>
    by_cases hp : (p.1 == k) = true
    · simp [odInsert, hp, lookupA]
    · rw [odInsert, if_neg hp, lookupA, if_neg hp]
      exact ih

theorem lookupA_odInsert_ne (m : List (String × α)) (k n : String) (v : α)
    (h : n ≠ k) :
    lookupA (odInsert m k v) n = lookupA m n := by
  have hkn : (k == n) = false := by
    simp only [beq_eq_false_iff_ne, ne_eq]
    exact fun he => h he.symm
  induction m with
  | nil => simp [odInsert, lookupA, hkn]
  | cons p m ih =>
    by_cases hp : (p.1 == k) = true
    · have hpk : p.1 = k := by simpa using hp
      rw [odInsert, if_pos hp, lookupA, lookupA, hkn]
      have hpn : (p.1 == n) = false := by rw [hpk]; exact hkn
      rw [if_neg (by simp : ¬false = true), if_neg (by rw [hpn]; simp : ¬(p.1 == n) = true)]
    · rw [odInsert, if_neg hp, lookupA, lookupA]
      by_cases hpn : (p.1 == n) = true
      · rw [if_pos hpn, if_pos hpn]
      · rw [if_neg hpn, if_neg hpn]
        exact ih

theorem hasKey_cons (p : String × α) (m : List (String × α)) (k : String) :
    hasKey (p :: m) k = (p.1 == k || hasKey m k) := by
  simp [hasKey]

theorem keysA_odInsert (m : List (String × α)) (k : String) (v : α) :
    keysA (odInsert m k v) =
      if hasKey m k then keysA m else keysA m ++ [k] := by
  induction m with
  | nil => simp [odInsert, keysA, hasKey]
  | cons p m ih =>
    by_cases hp : (p.1 == k) = true
    · have hpk : p.1 = k := by simpa using hp
      rw [odInsert, if_pos hp, hasKey_cons, hp]
      simp [keysA, hpk]
    · have hp2 : (p.1 == k) = false := by simpa using hp
      rw [odInsert, if_neg hp, hasKey_cons, hp2]
      simp only [Bool.false_or]
      by_cases hm : hasKey m k
      · rw [if_pos hm]
        simp only [keysA, List.map]
        rw [show List.map (fun p => p.1) (odInsert m k v) = keysA (odInsert m k v) from rfl,
          ih, if_pos hm]
        rfl
      · rw [if_neg hm]
        simp only [keysA, List.map]
        rw [show List.map (fun p => p.1) (odInsert m k v) = keysA (odInsert m k v) from rfl,
          ih, if_neg hm]
        rfl

theorem hasKey_true_iff (m : List (String × α)) (k : String) :
    hasKey m k = true ↔ k ∈ keysA m := by
  induction m with
  | nil => simp [hasKey, keysA]
  | cons p m ih =>
    rw [hasKey_cons]
    by_cases hp : (p.1 == k) = true
    · have hpk : p.1 = k := by simpa using hp
      simp [keysA, hpk]
    · have hpk : p.1 ≠ k := by simpa using hp
      simp only [hp, Bool.false_or, ih, keysA, List.map, List.mem_cons]
      constructor
      · exact fun h => Or.inr h
      · rintro (h | h)
        · exact absurd h.symm hpk
        · exact h

theorem odUpdateWith_lookup (key : β → String) (xs : List β) :
    ∀ (m : List (String × β)) (n : String),
      lookupA (odUpdateWith key m xs) n =
        (lastWithKey key xs n).or (lookupA m n) := by
  induction xs with
  | nil => intro m n; simp [odUpdateWith, lastWithKey, Option.or]
  | cons x xs ih =>
    intro m n
    have hstep : odUpdateWith key m (x :: xs) =
        odUpdateWith key (odInsert m (key x) x) xs := rfl
    rw [hstep, ih]
    cases hfl : lastWithKey key xs n with
    | some y => simp [lastWithKey, hfl, Option.or]
    | none =>
      simp only [lastWithKey, hfl, Option.or]
      by_cases hx : (key x == n) = true
      · have hxn : key x = n := by simpa using hx
        rw [if_pos hx, ← hxn, lookupA_odInsert_self]
      · have hxn : key x ≠ n := by simpa using hx
        rw [if_neg hx]
        rw [lookupA_odInsert_ne m (key x) n x (Ne.symm hxn)]

theorem odUpdateWith_keys (key : β → String) (xs : List β) :
    ∀ m : List (String × β), ∃ s,
      keysA (odUpdateWith key m xs) = keysA m ++ s ∧
        ∀ n ∈ s, hasKey m n = false ∧ n ∈ xs.map key := by
  induction xs with
  | nil => intro m; exact ⟨[], by simp [odUpdateWith], by simp⟩
  | cons x xs ih =>
    intro m
    have hstep : odUpdateWith key m (x :: xs) =
        odUpdateWith key (odInsert m (key x) x) xs := rfl
    obtain ⟨s, hs, hprop⟩ := ih (odInsert m (key x) x)
    by_cases hk : hasKey m (key x) = true
    · refine ⟨s, ?_, ?_⟩
      · rw [hstep, hs, keysA_odInsert, if_pos hk]
      · intro n hn
        obtain ⟨h1, h2⟩ := hprop n hn
        refine ⟨?_, by simp [h2]⟩
        have hkeys : keysA (odInsert m (key x) x) = keysA m := by
          rw [keysA_odInsert, if_pos hk]
        cases hh : hasKey m n with
        | false => rfl
        | true =>
          have hmem : n ∈ keysA (odInsert m (key x) x) := by
            rw [hkeys]; exact (hasKey_true_iff m n).mp hh
          have : hasKey (odInsert m (key x) x) n = true :=
            (hasKey_true_iff _ n).mpr hmem
          rw [this] at h1
          exact absurd h1 (by simp)
    · refine ⟨key x :: s, ?_, ?_⟩
      · rw [hstep, hs, keysA_odInsert, if_neg hk, List.append_assoc]
        rfl
      · intro n hn
        rcases List.mem_cons.mp hn with h | h
        · refine ⟨?_, by simp [h]⟩
          rw [h]
          simpa using hk
        · obtain ⟨h1, h2⟩ := hprop n h
          refine ⟨?_, by simp [h2]⟩
          cases hh : hasKey m n with
          | false => rfl
          | true =>
            have hmem : n ∈ keysA (odInsert m (key x) x) := by
              rw [keysA_odInsert, if_neg hk]
              exact List.mem_append_left _ ((hasKey_true_iff m n).mp hh)
            have : hasKey (odInsert m (key x) x) n = true :=
              (hasKey_true_iff _ n).mpr hmem
            rw [this] at h1
            exact absurd h1 (by simp)

theorem resolveBody_congr (r1 r2 : String → List String → Nat → CM)
    (reg : List (String × CTDef)) (typeName : String)
    (visited : List String) (depth : Nat)
    (h : ∀ b, r1 b (typeName :: visited) (depth + 1) = r2 b (typeName :: visited) (depth + 1)) :
    resolveBody r1 reg typeName visited depth = resolveBody r2 reg typeName visited depth := by
  unfold resolveBody
  by_cases h1 : depth > 20
  · rw [if_pos h1, if_pos h1]
  · rw [if_neg h1, if_neg h1]
    by_cases h2 : visited.contains typeName = true
    · rw [if_pos h2, if_pos h2]
    · rw [if_neg h2, if_neg h2]
      by_cases h3 : (strStartsWith typeName "xs:" || typeName == "") = true
      · rw [if_pos h3, if_pos h3]
      · rw [if_neg h3, if_neg h3]
        cases hlk : lookupA reg (strReplace (strReplace typeName "gml:" "") "diggs:" "") with
        | none => simp only [hlk]
        | some ct =>
          simp only [hlk]
          by_cases hext : (ct.isExtension && optTruthy ct.base) = true
          · rw [if_pos hext, if_pos hext, h]
          · rw [if_neg hext, if_neg hext]
            by_cases hres : (optTruthy ct.base && !ct.isExtension) = true
            · rw [if_pos hres, if_pos hres, h]
            · rw [if_neg hres, if_neg hres]

theorem resolve_unfold (reg : List (String × CTDef)) (typeName : String)
    (visited : List String) (depth : Nat) (hd : depth ≤ 20) :
    resolve_content_model reg typeName visited depth =
      resolveBody (fun b v d => resolve_content_model reg b v d) reg typeName visited depth := by
  unfold resolve_content_model
  obtain ⟨f, hf⟩ : ∃ f, 21 - depth = f + 1 := ⟨20 - depth, by omega⟩
  rw [hf]
  show resolveBody (fun b v d => resolveGo f reg b v d) reg typeName visited depth = _
  apply resolveBody_congr
  intro b
  have hf2 : f = 21 - (depth + 1) := by omega
  rw [hf2]

theorem resolveGo_stable :
    ∀ (fuel : Nat) (reg : List (String × CTDef)) (typeName : String)
      (visited : List String) (depth : Nat), 21 - depth ≤ fuel →
      resolveGo fuel reg typeName visited depth =
        resolve_content_model reg typeName visited depth := by
  intro fuel
  induction fuel with
  | zero =>
    intro reg t v d h
    have h0 : 21 - d = 0 := by omega
    unfold resolve_content_model
    rw [h0]
  | succ f ih =>
    intro reg t v d h
    by_cases hd : d > 20
    · have h1 : resolveGo (f + 1) reg t v d = ([], []) := by
        show resolveBody _ reg t v d = ([], [])
        unfold resolveBody
        rw [if_pos hd]
      have h0 : 21 - d = 0 := by omega
      have h2 : resolve_content_model reg t v d = ([], []) := by
        unfold resolve_content_model
        rw [h0]
        rfl
      rw [h1, h2]
    · rw [resolve_unfold reg t v d (by omega)]
      show resolveBody (fun b v2 d2 => resolveGo f reg b v2 d2) reg t v d = _
      apply resolveBody_congr
      intro b
      exact ih reg b (t :: v) (d + 1) (by omega)

/-- C8: content-model resolution terminates for every input, cyclic base
chains included: a depth above the cap of 20 or an already-visited qualified
name returns the empty content model instead of recursing, and any fuel of at
least 21 - depth yields the same stable result, so resolve_content_model is a
total function on all registries. -/
theorem C8_resolution_total :
    (∀ (reg : List (String × CTDef)) (typeName : String) (visited : List String)
        (depth : Nat), depth > 20 →
          resolve_content_model reg typeName visited depth = ([], [])) ∧
    (∀ (reg : List (String × CTDef)) (typeName : String) (visited : List String)
        (depth : Nat), visited.contains typeName = true →
          resolve_content_model reg typeName visited depth = ([], [])) ∧
    (∀ (fuel : Nat) (reg : List (String × CTDef)) (typeName : String)
        (visited : List String) (depth : Nat), 21 - depth ≤ fuel →
          resolveGo fuel reg typeName visited depth =
            resolve_content_model reg typeName visited depth) := by
  refine ⟨?_, ?_, resolveGo_stable⟩
  · intro reg t v d h
    unfold resolve_content_model
    have h0 : 21 - d = 0 := by omega
    rw [h0]
    rfl
  · intro reg t v d h
    by_cases hd : d > 20
    · unfold resolve_content_model
      have h0 : 21 - d = 0 := by omega
      rw [h0]
      rfl
    · rw [resolve_unfold reg t v d (by omega)]
      unfold resolveBody
      rw [if_neg hd, if_pos h]

/-- A registry whose base chain references itself (A extends A). -/
def cyclicReg : List (String × CTDef) :=
  [("A", { base := some "A", isExtension := true,
           localElements := [⟨"a", "xs:string", "1", "1"⟩],
           localAttributes := [] })]

theorem C8_witness :
    resolve_content_model cyclicReg "A" [] 21 = ([], []) ∧
    resolve_content_model cyclicReg "A" ["A"] 0 = ([], []) ∧
    resolveGo 30 cyclicReg "A" [] 0 = resolve_content_model cyclicReg "A" [] 0 :=
  ⟨C8_resolution_total.1 cyclicReg "A" [] 21 (by decide),
   C8_resolution_total.2.1 cyclicReg "A" ["A"] 0 (by decide),
   C8_resolution_total.2.2 30 cyclicReg "A" [] 0 (by decide)⟩

/-- C3: for a type derived by extension with a truthy base, the resolved
content model equals the recursively resolved base (at depth + 1, with the
current name added to visited) overlaid with the local elements and
attributes: a local entry replaces the base entry of the same name, every
other base entry is inherited unchanged, and the key order of both resulting
ordered mappings lists the inherited members first, then the genuinely new
local members. -/
theorem C3_extension_overlay
    (reg : List (String × CTDef)) (typeName b : String) (ct : CTDef)
    (visited : List String) (depth : Nat)
    (hd : depth ≤ 20) (hv : visited.contains typeName = false)
    (hx : strStartsWith typeName "xs:" = false) (hne : typeName ≠ "")
    (hct : lookupA reg (strReplace (strReplace typeName "gml:" "") "diggs:" "") = some ct)
    (hext : ct.isExtension = true) (hb : ct.base = some b) (hbne : b ≠ "") :
    (resolve_content_model reg typeName visited depth =
      resolveAssemble ct (resolve_content_model reg b (typeName :: visited) (depth + 1))) ∧
    (∀ n, lookupA (resolve_content_model reg typeName visited depth).1 n =
      (lastWithKey ElemInfo.name ct.localElements n).or
        (lookupA (resolve_content_model reg b (typeName :: visited) (depth + 1)).1 n)) ∧
    (∃ s, keysA (resolve_content_model reg typeName visited depth).1 =
        keysA (resolve_content_model reg b (typeName :: visited) (depth + 1)).1 ++ s ∧
        ∀ n ∈ s,
          hasKey (resolve_content_model reg b (typeName :: visited) (depth + 1)).1 n = false ∧
            n ∈ ct.localElements.map ElemInfo.name) ∧
    (∃ s, keysA (resolve_content_model reg typeName visited depth).2 =
        keysA (resolve_content_model reg b (typeName :: visited) (depth + 1)).2 ++ s ∧
        ∀ n ∈ s,
          hasKey (resolve_content_model reg b (typeName :: visited) (depth + 1)).2 n = false ∧
            n ∈ ct.localAttributes.map AttrInfo.name) := by
  have hmain : resolve_content_model reg typeName visited depth =
      resolveAssemble ct (resolve_content_model reg b (typeName :: visited) (depth + 1)) := by
    rw [resolve_unfold reg typeName visited depth hd]
    unfold resolveBody
    have hgd : ¬depth > 20 := by omega
    have hg2 : ¬visited.contains typeName = true := by rw [hv]; simp
    have hg3 : ¬(strStartsWith typeName "xs:" || typeName == "") = true := by
      rw [hx]
      simp [hne]
    rw [if_neg hgd, if_neg hg2, if_neg hg3]
    simp only [hct]
    have hcond : (ct.isExtension && optTruthy ct.base) = true := by
      rw [hext, hb]
      simp [optTruthy, hbne]
    rw [if_pos hcond]
    simp only [hb, Option.getD_some]
  refine ⟨hmain, ?_, ?_, ?_⟩
  · intro n
    rw [hmain]
    simp only [resolveAssemble]
    exact odUpdateWith_lookup ElemInfo.name ct.localElements
      (resolve_content_model reg b (typeName :: visited) (depth + 1)).1 n
  · rw [hmain]
    simp only [resolveAssemble]
    exact odUpdateWith_keys ElemInfo.name ct.localElements
      (resolve_content_model reg b (typeName :: visited) (depth + 1)).1
  · rw [hmain]
    simp only [resolveAssemble]
    exact odUpdateWith_keys AttrInfo.name ct.localAttributes
      (resolve_content_model reg b (typeName :: visited) (depth + 1)).2

/-- The extension example of the spec: Base = {a: 0..1}, Derived extends Base
adding {b: 1..1}. -/
def extReg : List (String × CTDef) :=
  [("Base", { base := none, isExtension := false,
              localElements := [⟨"a", "xs:string", "0", "1"⟩],
              localAttributes := [⟨"x", "xs:string", "optional"⟩] }),
   ("Derived", { base := some "Base", isExtension := true,
                 localElements := [⟨"b", "xs:string", "1", "1"⟩],
                 localAttributes := [] })]

theorem C3_witness :
    resolve_content_model extReg "Derived" [] 0 =
      resolveAssemble
        { base := some "Base", isExtension := true,
          localElements := [⟨"b", "xs:string", "1", "1"⟩], localAttributes := [] }
        (resolve_content_model extReg "Base" ["Derived"] 1) ∧
    resolve_content_model extReg "Derived" [] 0 =
      ([("a", ⟨"a", "xs:string", "0", "1"⟩), ("b", ⟨"b", "xs:string", "1", "1"⟩)],
       [("x", ⟨"x", "xs:string", "optional"⟩)]) :=
  ⟨(C3_extension_overlay extReg "Derived" "Base"
      { base := some "Base", isExtension := true,
        localElements := [⟨"b", "xs:string", "1", "1"⟩], localAttributes := [] }
      [] 0 (by decide) (by decide) (by decide) (by decide) (by decide) rfl rfl
      (by decide)).1,
   by decide⟩

/-- C2: for a type derived by restriction with a truthy base, the resolved
content model inherits only the attributes of the recursively resolved base
(overlaid with the local attributes), while its element set comes exclusively
from the restriction's own local declarations. -/
theorem C2_restriction_semantics
    (reg : List (String × CTDef)) (typeName b : String) (ct : CTDef)
    (visited : List String) (depth : Nat)
    (hd : depth ≤ 20) (hv : visited.contains typeName = false)
    (hx : strStartsWith typeName "xs:" = false) (hne : typeName ≠ "")
    (hct : lookupA reg (strReplace (strReplace typeName "gml:" "") "diggs:" "") = some ct)
    (hext : ct.isExtension = false) (hb : ct.base = some b) (hbne : b ≠ "") :
    (resolve_content_model reg typeName visited depth =
      (odUpdateWith ElemInfo.name [] ct.localElements,
       odUpdateWith AttrInfo.name
         (resolve_content_model reg b (typeName :: visited) (depth + 1)).2
         ct.localAttributes)) ∧
    (∀ n, n ∈ keysA (resolve_content_model reg typeName visited depth).1 →
        n ∈ ct.localElements.map ElemInfo.name) := by
  have hmain : resolve_content_model reg typeName visited depth =
      (odUpdateWith ElemInfo.name [] ct.localElements,
       odUpdateWith AttrInfo.name
         (resolve_content_model reg b (typeName :: visited) (depth + 1)).2
         ct.localAttributes) := by
    rw [resolve_unfold reg typeName visited depth hd]
    unfold resolveBody
    have hgd : ¬depth > 20 := by omega
    have hg2 : ¬visited.contains typeName = true := by rw [hv]; simp
    have hg3 : ¬(strStartsWith typeName "xs:" || typeName == "") = true := by
      rw [hx]
      simp [hne]
    rw [if_neg hgd, if_neg hg2, if_neg hg3]
    simp only [hct]
    have hcond1 : ¬(ct.isExtension && optTruthy ct.base) = true := by
      rw [hext]
      simp
    have hcond2 : (optTruthy ct.base && !ct.isExtension) = true := by
      rw [hext, hb]
      simp [optTruthy, hbne]
    rw [if_neg hcond1, if_pos hcond2]
    simp only [hb, Option.getD_some]
    rfl
  refine ⟨hmain, ?_⟩
  intro n hn
  rw [hmain] at hn
  obtain ⟨s, hs, hprop⟩ := odUpdateWith_keys ElemInfo.name ct.localElements []
  rw [hs] at hn
  have hn2 : n ∈ s := by simpa [keysA] using hn
  exact (hprop n hn2).2

/-- The restriction example of the spec: Base = {elements {a: 0..1},
attributes {@x}}; Restricted restricts Base declaring only {a: 0..1}. -/
def resReg : List (String × CTDef) :=
  [("Base", { base := none, isExtension := false,
              localElements := [⟨"a", "xs:string", "0", "1"⟩],
              localAttributes := [⟨"x", "xs:string", "optional"⟩] }),
   ("Restricted", { base := some "Base", isExtension := false,
                    localElements := [⟨"a", "xs:string", "0", "1"⟩],
                    localAttributes := [] })]

theorem C2_witness :
    resolve_content_model resReg "Restricted" [] 0 =
      (odUpdateWith ElemInfo.name [] [⟨"a", "xs:string", "0", "1"⟩],
       odUpdateWith AttrInfo.name
         (resolve_content_model resReg "Base" ["Restricted"] 1).2 []) ∧
    resolve_content_model resReg "Restricted" [] 0 =
      ([("a", ⟨"a", "xs:string", "0", "1"⟩)],
       [("x", ⟨"x", "xs:string", "optional"⟩)]) :=
  ⟨(C2_restriction_semantics resReg "Restricted" "Base"
      { base := some "Base", isExtension := false,
        localElements := [⟨"a", "xs:string", "0", "1"⟩], localAttributes := [] }
      [] 0 (by decide) (by decide) (by decide) (by decide) (by decide) rfl rfl
      (by decide)).1,
   by decide⟩

/-- normalize_type_name (analyzer lines 217-225): clean_type_name, with the
empty string mapped to itself. -/
def normalize_type_name (s : String) : String :=
  clean_type_name s

/-- The built-in bare names of is_builtin_type (analyzer lines 242-244). -/
def builtinNames : List String :=
  ["string", "double", "float", "integer", "int", "long", "short",
   "byte", "boolean", "decimal", "date", "dateTime", "time",
   "anyURI", "QName", "anyType", "anySimpleType"]

/-- is_builtin_type (analyzer lines 227-245). -/
def is_builtin_type (typeName : String) : Bool :=
  if typeName == "" then false
  else if strStartsWith typeName "xs:" then true
  else builtinNames.contains (bareAfterColon typeName)

/-- minOccurs parsing of analyzer lines 356-357: int(s) when isdigit, else 0. -/
def parseMinOccurs (s : String) : Nat :=
  if pyIsDigit s then pyInt s else 0

/-- maxOccurs parsing of analyzer lines 358-359: "unbounded" becomes the
sentinel 999999, digit strings their value, anything else 1. -/
def parseMaxOccurs (s : String) : Nat :=
  if s == "unbounded" then 999999
  else if pyIsDigit s then pyInt s else 1

/-- The per-element cardinality-restriction test of analyzer line 361 (and of
content_models_match lines 245-255): new minOccurs above old, or new
maxOccurs below old, on the parsed values. -/
def cardinalityRestricted (eOld eNew : ElemInfo) : Bool :=
  decide (parseMinOccurs eOld.minOccurs < parseMinOccurs eNew.minOccurs) ||
  decide (parseMaxOccurs eNew.maxOccurs < parseMaxOccurs eOld.maxOccurs)

/-- Python ", ".join. -/
def joinComma : List String → String
  | [] => ""
  | [s] => s
  | s :: rest => s ++ ", " ++ joinComma rest

/-- The per-run memoization cache type_compat_cache, keyed by the raw
(old, new) name pair; dict assignment is modelled by consing and dict.get by
first match. -/
abbrev Cache := List ((String × String) × (Bool × String))

def cacheGet (c : Cache) (k : String × String) : Option (Bool × String) :=
  (c.find? (fun p => p.1 == k)).map (fun p => p.2)

def cachePut (c : Cache) (k : String × String) (r : Bool × String) : Cache :=
  (k, r) :: c

/-- The analyzer state read by check_type_content_compatibility:
type_mappings and the old / new complexType registries (extraction being
precomputed in each CTDef, as for resolve_content_model). -/
structure Env where
  mappings : List (String × String)
  oldTypes : List (String × CTDef)
  newTypes : List (String × CTDef)
  deriving Repr

/-- The common-element loop of check_type_content_compatibility (analyzer
lines 351-374), names taken in old-content-model order: the cardinality
check fires first, then, when the declared types differ and the new one is
non-empty, the nested comparison recur (the engine at depth + 1) runs with
the cache threaded through; the first failure is returned. -/
def checkCommonElems (recur : String → String → Cache → (Bool × String) × Cache)
    (cmOldE cmNewE : List (String × ElemInfo)) :
    List String → Cache → Option (Bool × String) × Cache
  | [], cache => (none, cache)
  | n :: rest, cache =>
    match lookupA cmOldE n, lookupA cmNewE n with
    | some eOld, some eNew =>
      if cardinalityRestricted eOld eNew then
        (some (false, "Cardinality restricted on element: " ++ n), cache)
      else if eOld.ty != eNew.ty && eNew.ty != "" then
        match recur eOld.ty eNew.ty cache with
        | ((ok, reason), cache2) =>
          if !ok then
            (some (false, "Incompatible type change on " ++ n ++ ": " ++ reason), cache2)
          else checkCommonElems recur cmOldE cmNewE rest cache2
      else checkCommonElems recur cmOldE cmNewE rest cache
    | _, _ => checkCommonElems recur cmOldE cmNewE rest cache

/-- check_type_content_compatibility (analyzer lines 247-390), structurally
recursive on fuel; the fuel-0 arm coincides with the depth > 5 guard result,
so running with fuel 7 - depth reproduces the source at every depth.  Python
set iteration (of unspecified order) is modelled by taking names in
content-model order; the reason prefixes follow sorted(list(...)[:3]). -/
def checkTCCFuel : Nat → Env → String → String → Nat → Cache → (Bool × String) × Cache
  | 0, _, _, _, _, cache => ((true, "Max recursion depth reached"), cache)
  | fuel + 1, env, oldType, newType, depth, cache =>
    if depth > 5 then ((true, "Max recursion depth reached"), cache)
    else
      match cacheGet cache (oldType, newType) with
      | some r => (r, cache)
      | none =>
        let on0 := normalize_type_name oldType
        let nn0 := normalize_type_name newType
        if on0 == nn0 then
          ((true, "Types identical"), cachePut cache (oldType, newType) (true, "Types identical"))
        else if (match lookupA env.mappings on0 with
                 | some m => normalize_type_name m == nn0
                 | none => false) then
          ((true, "Known mapping"), cachePut cache (oldType, newType) (true, "Known mapping"))
        else if is_builtin_type oldType || is_builtin_type newType then
          let r := if on0 == nn0 then (true, "Same built-in type")
                   else (false, "Built-in type change: " ++ on0 ++ " → " ++ nn0)
          (r, cachePut cache (oldType, newType) r)
        else if !hasKey env.oldTypes on0 then
          let r := (false, "Old type " ++ on0 ++ " not found in old schema")
          (r, cachePut cache (oldType, newType) r)
        else if !hasKey env.newTypes nn0 then
          let r := (false, "New type " ++ nn0 ++ " not found in new schema")
          (r, cachePut cache (oldType, newType) r)
        else
          let cmOld := resolve_content_model env.oldTypes on0 [] 0
          let cmNew := resolve_content_model env.newTypes nn0 [] 0
          let namesOld := keysA cmOld.1
          let namesNew := keysA cmNew.1
          let attrsOld := keysA cmOld.2
          let attrsNew := keysA cmNew.2
          let missingElems := namesOld.filter (fun n => !namesNew.contains n)
          if !missingElems.isEmpty then
            let r := (false, "Missing elements: " ++
              joinComma (sortStrings (missingElems.take 3)))
            (r, cachePut cache (oldType, newType) r)
          else
            let missingAttrs := attrsOld.filter (fun n => !attrsNew.contains n)
            if !missingAttrs.isEmpty then
              let r := (false, "Missing attributes: " ++
                joinComma (sortStrings (missingAttrs.take 3)))
              (r, cachePut cache (oldType, newType) r)
            else
              match cmNew.1.find? (fun p => !namesOld.contains p.1 && p.2.minOccurs != "0") with
              | some p =>
                let r := (false, "New required element: " ++ p.1)
                (r, cachePut cache (oldType, newType) r)
              | none =>
                match cmNew.2.find? (fun p => !attrsOld.contains p.1 && p.2.use == "required") with
                | some p =>
                  let r := (false, "New required attribute: " ++ p.1)
                  (r, cachePut cache (oldType, newType) r)
                | none =>
                  match checkCommonElems
                      (fun o n c => checkTCCFuel fuel env o n (depth + 1) c)
                      cmOld.1 cmNew.1 (namesOld.filter (fun n => namesNew.contains n))
                      cache with
                  | (some r, cache2) => (r, cachePut cache2 (oldType, newType) r)
                  | (none, cache2) =>
                    match (attrsOld.filter (fun n => attrsNew.contains n)).find? (fun n =>
                        ((lookupA cmOld.2 n).map (fun a => a.use) == some "optional") &&
                        ((lookupA cmNew.2 n).map (fun a => a.use) == some "required")) with
                    | some n =>
                      let r := (false, "Attribute now required: " ++ n)
                      (r, cachePut cache2 (oldType, newType) r)
                    | none =>
                      let r := (true, "Content models compatible")
                      (r, cachePut cache2 (oldType, newType) r)

/-- check_type_content_compatibility (analyzer lines 247-390). -/
def check_type_content_compatibility (env : Env) (oldType newType : String)
    (depth : Nat) (cache : Cache) : (Bool × String) × Cache :=
  checkTCCFuel (7 - depth) env oldType newType depth cache

/-- is_type_change_compatible (analyzer lines 392-410). -/
def is_type_change_compatible (env : Env) (oldType newType : String)
    (cache : Cache) : (Bool × String) × Cache :=
  if oldType == "" || newType == "" then ((true, "Empty type"), cache)
  else if normalize_type_name oldType == normalize_type_name newType then
    ((true, "Types identical"), cache)
  else if (match lookupA env.mappings (normalize_type_name oldType) with
           | some m => normalize_type_name m == normalize_type_name newType
           | none => false) then
    ((true, "Known mapping"), cache)
  else check_type_content_compatibility env oldType newType 0 cache

/-- Modelled from the claim wording for C1: the maxOccurs token interpreted
with "unbounded" as positive infinity (none denotes infinity). -/
def specMaxOccurs (s : String) : Option Nat :=
  if s == "unbounded" then none
  else some (if pyIsDigit s then pyInt s else 1)

/-- Strict order on Option Nat with none as positive infinity. -/
def optNatLtInf : Option Nat → Option Nat → Bool
  | none, _ => false
  | some _, none => true
  | some a, some b => decide (a < b)

/-- Modelled from the claim wording for C1: the cardinality-restriction
predicate with "unbounded" read as positive infinity. -/
def cardinalityRestrictedSpec (eOld eNew : ElemInfo) : Bool :=
  decide (parseMinOccurs eOld.minOccurs < parseMinOccurs eNew.minOccurs) ||
  optNatLtInf (specMaxOccurs eNew.maxOccurs) (specMaxOccurs eOld.maxOccurs)

/-- A compare_simpletype record (analyzer lines 565-572); the base_changed
field is never written by the source and is omitted. -/
structure SimpleTypeResult where
  name : String
  type_removed : String
  restriction_changed : String
  notes : String
  compatible : String
  deriving DecidableEq, Repr

/-- compare_simpletype (analyzer lines 558-600).  A simpleType definition is
modelled by its serialized XML text, which is what ET.tostring produces and
what the function compares; mappedName = "" models Python None (no
mapping), matching the source's truthiness tests. -/
def compare_simpletype (oldSimpletypes newSimpletypes : List (String × String))
    (qualifiedName mappedName : String) : SimpleTypeResult :=
  match lookupA newSimpletypes (if mappedName != "" then mappedName else qualifiedName) with
  | none =>
    { name := qualifiedName, type_removed := "Yes", restriction_changed := "",
      notes := "SimpleType not found in new version", compatible := "No" }
  | some newStr =>
    if (lookupA oldSimpletypes qualifiedName).getD "" != newStr then
      { name := qualifiedName,
        type_removed := if mappedName != "" then "Renamed to: " ++ mappedName else "No",
        restriction_changed := "Yes",
        notes := if mappedName != "" then
            "SimpleType renamed from " ++ qualifiedName ++ " to " ++ mappedName ++
              "; Restriction or base type changed"
          else "Restriction or base type changed",
        compatible := "Yes" }
    else
      { name := qualifiedName,
        type_removed := if mappedName != "" then "Renamed to: " ++ mappedName else "No",
        restriction_changed := "",
        notes := if mappedName != "" then
            "SimpleType renamed from " ++ qualifiedName ++ " to " ++ mappedName
          else "",
        compatible := "Yes" }

/-- An xs:attribute node as read by extract_local_attributes: its optional
name, ref, type and use XML attributes. -/
structure AttrNode where
  name : Option String
  ref : Option String
  ty : Option String
  use : Option String
  deriving DecidableEq, Repr

/-- The prefix stripping of resolve_attribute_ref line 139. -/
def stripAttrPrefixes (s : String) : String :=
  strReplace (strReplace (strReplace s "gml:" "") "diggs:" "") "xml:" ""

/-- resolve_attribute_ref (fixed_resolver.py lines 138-149): look the ref up
in the global attribute table and build the entry with use hard-coded to
"optional". -/
def resolve_attribute_ref (attrRef : String) (allAttrs : List (String × AttrNode)) :
    Option AttrInfo :=
  match lookupA allAttrs (stripAttrPrefixes attrRef) with
  | some attrDef =>
    some { name := attrRef, ty := clean_type_name (attrDef.ty.getD ""), use := "optional" }
  | none => none

/-- extract_local_attributes (fixed_resolver.py lines 151-171); a missing
name on a non-ref attribute node is modelled as the empty string. -/
def extract_local_attributes (nodes : List AttrNode)
    (allAttrs : List (String × AttrNode)) : List AttrInfo :=
  nodes.foldl (fun acc node =>
    if node.ref.getD "" != "" then
      match resolve_attribute_ref (clean_type_name (node.ref.getD "")) allAttrs with
      | some resolved =>
        acc ++ [if node.use.getD "" != "" then { resolved with use := node.use.getD "" }
                else resolved]
      | none => acc
    else
      acc ++ [{ name := node.name.getD "", ty := clean_type_name (node.ty.getD ""),
                use := node.use.getD "optional" }]) []

/-- The mapped-name computation of analyze (analyzer lines 634-649); the
empty string models Python None / no mapping found. -/
def compute_mapped_name (mappings : List (String × String))
    (newTypeKeys : List String) (qualifiedName : String) : String :=
  if (lookupA mappings qualifiedName).getD "" != "" then
    (lookupA mappings qualifiedName).getD ""
  else
    if (lookupA mappings (lastColonSegment qualifiedName)).getD "" != "" &&
        !strContainsChar ((lookupA mappings (lastColonSegment qualifiedName)).getD "") ':' then
      if newTypeKeys.contains
          (firstColonSegment qualifiedName ++ ":" ++
            (lookupA mappings (lastColonSegment qualifiedName)).getD "") then
        firstColonSegment qualifiedName ++ ":" ++
          (lookupA mappings (lastColonSegment qualifiedName)).getD ""
      else (lookupA mappings (lastColonSegment qualifiedName)).getD ""
    else (lookupA mappings (lastColonSegment qualifiedName)).getD ""

/-- Modelled from the claim wording for C6: on a bare-name hit with an
unqualified target, the re-qualified target is used only if it exists in the
new registry; otherwise no mapping is applied at all. -/
def compute_mapped_name_claim (mappings : List (String × String))
    (newTypeKeys : List String) (qualifiedName : String) : String :=
  if (lookupA mappings qualifiedName).getD "" != "" then
    (lookupA mappings qualifiedName).getD ""
  else
    if (lookupA mappings (lastColonSegment qualifiedName)).getD "" != "" &&
        !strContainsChar ((lookupA mappings (lastColonSegment qualifiedName)).getD "") ':' then
      if newTypeKeys.contains
          (firstColonSegment qualifiedName ++ ":" ++
            (lookupA mappings (lastColonSegment qualifiedName)).getD "") then
        firstColonSegment qualifiedName ++ ":" ++
          (lookupA mappings (lastColonSegment qualifiedName)).getD ""
      else ""
    else (lookupA mappings (lastColonSegment qualifiedName)).getD ""

/-- The content of one parsed schema document: named complexTypes,
simpleTypes (as serialized text) and global attributes, in document order. -/
structure ParsedSchema where
  complexTypes : List (String × CTDef)
  simpleTypes : List (String × String)
  attributes : List (String × AttrNode)
  deriving DecidableEq, Repr

/-- One .xsd file handed to load_schemas: parse_schema's outcome (none when
the file fails to parse, after printing a warning) and the namespace label
derived by _extract_namespace_label. -/
structure SchemaDoc where
  parsed : Option ParsedSchema
  nsLabel : String
  deriving DecidableEq, Repr

/-- The three registries load_schemas returns for one version. -/
structure Registries where
  types : List (String × CTDef)
  simpletypes : List (String × String)
  attrs : List (String × AttrNode)
  deriving DecidableEq, Repr

/-- load_schemas (analyzer lines 128-175): raise when the directory holds no
.xsd files at all; otherwise index every document that parsed (documents
that fail to parse are skipped), qualifying complexType and simpleType names
with the document's namespace label (later documents win on name collision)
and collecting global attributes under their bare name. -/
def load_schemas (schemaFiles : List SchemaDoc) : Except String Registries :=
  if schemaFiles.isEmpty then Except.error "No .xsd files found"
  else
    Except.ok
      { types := (schemaFiles.filterMap (fun f => f.parsed.map (fun p => (p, f.nsLabel)))).foldl
          (fun acc pd => pd.1.complexTypes.foldl
            (fun acc2 ct => odInsert acc2 (pd.2 ++ ":" ++ ct.1) ct.2) acc) [],
        simpletypes :=
          (schemaFiles.filterMap (fun f => f.parsed.map (fun p => (p, f.nsLabel)))).foldl
          (fun acc pd => pd.1.simpleTypes.foldl
            (fun acc2 st => odInsert acc2 (pd.2 ++ ":" ++ st.1) st.2) acc) [],
        attrs := (schemaFiles.filterMap (fun f => f.parsed.map (fun p => (p, f.nsLabel)))).foldl
          (fun acc pd => pd.1.attributes.foldl
            (fun acc2 a => odInsert acc2 a.1 a.2) acc) [] }

/-- C10: above nested-recursion depth 5 the engine immediately defaults the
verdict to compatible with reason "Max recursion depth reached", for every
mapping table, registry pair and cache, and returns the cache untouched
(it consults none of them and writes nothing). -/
theorem C10_depth_cap_compatible (env : Env) (cache : Cache)
    (oldType newType : String) (depth : Nat) (h : depth > 5) :
    check_type_content_compatibility env oldType newType depth cache =
      ((true, "Max recursion depth reached"), cache) := by
  by_cases h7 : 7 - depth = 0
  · unfold check_type_content_compatibility
    rw [h7]
    rfl
  · obtain ⟨f, hf⟩ : ∃ f, 7 - depth = f + 1 := ⟨7 - depth - 1, by omega⟩
    unfold check_type_content_compatibility
    rw [hf]
    show (if depth > 5 then ((true, "Max recursion depth reached"), cache) else _) = _
    rw [if_pos h]

theorem C10_witness :
    check_type_content_compatibility ⟨[], [], []⟩ "diggs:A" "diggs:B" 6 [] =
      ((true, "Max recursion depth reached"), []) :=
  C10_depth_cap_compatible ⟨[], [], []⟩ [] "diggs:A" "diggs:B" 6 (by decide)

/-- C9: the identity rule comes first: for nonempty type names whose
normalized forms agree, is_type_change_compatible answers
(true, "Types identical") whatever the mapping table, the registries and the
cache contain, without consulting or modifying any of them. -/
theorem C9_identity_first (env : Env) (cache : Cache) (oldType newType : String)
    (ho : oldType ≠ "") (hn : newType ≠ "")
    (heq : normalize_type_name oldType = normalize_type_name newType) :
    is_type_change_compatible env oldType newType cache =
      ((true, "Types identical"), cache) := by
  unfold is_type_change_compatible
  rw [if_neg (by simp [ho, hn] : ¬(oldType == "" || newType == "") = true)]
  rw [if_pos (by simp [heq] :
    (normalize_type_name oldType == normalize_type_name newType) = true)]

theorem C9_witness :
    is_type_change_compatible ⟨[("Foo", "Bar")], [], []⟩ "diggs:Foo" "Foo" [] =
      ((true, "Types identical"), []) :=
  C9_identity_first ⟨[("Foo", "Bar")], [], []⟩ [] "diggs:Foo" "Foo"
    (by decide) (by decide) (by decide)

/-- C1 fails on the code: at old maxOccurs "1000000" against new maxOccurs
"unbounded", the engine's loop returns the verdict incompatible with reason
"Cardinality restricted on element: e" (the sentinel encoding gives
999999 < 1000000), although under the claim's reading the upper bound
widened to infinity, a widening that must never be reported restrictive. -/
theorem C1_counterexample :
    (checkCommonElems (fun _ _ c => ((true, ""), c))
        [("e", ⟨"e", "T", "1", "1000000"⟩)] [("e", ⟨"e", "T", "1", "unbounded"⟩)]
        ["e"] []).1 =
      some (false, "Cardinality restricted on element: " ++ "e") ∧
    cardinalityRestrictedSpec ⟨"e", "T", "1", "1000000"⟩ ⟨"e", "T", "1", "unbounded"⟩ = false :=
  ⟨by decide, by decide⟩

theorem card_code_eq_spec (eOld eNew : ElemInfo)
    (hxo : eOld.maxOccurs = "unbounded" ∨
      (pyIsDigit eOld.maxOccurs = true ∧ pyInt eOld.maxOccurs < 999999))
    (hxn : eNew.maxOccurs = "unbounded" ∨
      (pyIsDigit eNew.maxOccurs = true ∧ pyInt eNew.maxOccurs < 999999)) :
    cardinalityRestricted eOld eNew = cardinalityRestrictedSpec eOld eNew := by
  have hnu : ∀ s : String, pyIsDigit s = true → s ≠ "unbounded" := by
    intro s hs he
    rw [he] at hs
    exact absurd hs (by decide)
  unfold cardinalityRestricted cardinalityRestrictedSpec
  congr 1
  rcases hxo with ho | ⟨ho1, ho2⟩
  · rcases hxn with hn | ⟨hn1, hn2⟩
    · rw [ho, hn]
      decide
    · rw [ho]
      simp only [parseMaxOccurs, specMaxOccurs, optNatLtInf, hn1, if_true,
        if_pos (by decide : (("unbounded" : String) == "unbounded") = true),
        if_neg (by simp [hnu eNew.maxOccurs hn1] :
          ¬(eNew.maxOccurs == "unbounded") = true)]
      simp [hn2]
  · rcases hxn with hn | ⟨hn1, hn2⟩
    · rw [hn]
      simp only [parseMaxOccurs, specMaxOccurs, optNatLtInf, ho1, if_true,
        if_pos (by decide : (("unbounded" : String) == "unbounded") = true),
        if_neg (by simp [hnu eOld.maxOccurs ho1] :
          ¬(eOld.maxOccurs == "unbounded") = true)]
      simp
      omega
    · simp only [parseMaxOccurs, specMaxOccurs, optNatLtInf, ho1, hn1, if_true,
        if_neg (by simp [hnu eOld.maxOccurs ho1] :
          ¬(eOld.maxOccurs == "unbounded") = true),
        if_neg (by simp [hnu eNew.maxOccurs hn1] :
          ¬(eNew.maxOccurs == "unbounded") = true)]

/-- C1 (amended): in the engine's common-element loop, an element present in
both resolved content models with an unchanged declared type produces the
verdict (false, "Cardinality restricted on element: n") exactly when the
comparison with "unbounded" read as positive infinity is restrictive,
provided every numeric maxOccurs token stays below 999999, the finite
sentinel the code substitutes for "unbounded" (at or above the sentinel the
code diverges from the infinity reading, as C1_counterexample shows). -/
theorem C1_cardinality_sentinel
    (recur : String → String → Cache → (Bool × String) × Cache)
    (cmOldE cmNewE : List (String × ElemInfo)) (n : String)
    (eOld eNew : ElemInfo) (cache : Cache)
    (hO : lookupA cmOldE n = some eOld) (hN : lookupA cmNewE n = some eNew)
    (hty : eOld.ty = eNew.ty)
    (hxo : eOld.maxOccurs = "unbounded" ∨
      (pyIsDigit eOld.maxOccurs = true ∧ pyInt eOld.maxOccurs < 999999))
    (hxn : eNew.maxOccurs = "unbounded" ∨
      (pyIsDigit eNew.maxOccurs = true ∧ pyInt eNew.maxOccurs < 999999)) :
    (checkCommonElems recur cmOldE cmNewE [n] cache).1 =
        some (false, "Cardinality restricted on element: " ++ n) ↔
      cardinalityRestrictedSpec eOld eNew = true := by
  have hcs := card_code_eq_spec eOld eNew hxo hxn
  unfold checkCommonElems
  simp only [hO, hN]
  by_cases hcard : cardinalityRestricted eOld eNew = true
  · rw [if_pos hcard]
    constructor
    · intro _
      rw [← hcs]
      exact hcard
    · intro _
      rfl
  · rw [if_neg hcard]
    rw [if_neg (by simp [hty] : ¬(eOld.ty != eNew.ty && eNew.ty != "") = true)]
    constructor
    · intro habs
      exact absurd habs (by simp [checkCommonElems])
    · intro hspec
      rw [← hcs] at hspec
      exact absurd hspec hcard

theorem C1_witness :
    ((checkCommonElems (fun _ _ c => ((true, ""), c))
        [("e", ⟨"e", "T", "0", "5"⟩)] [("e", ⟨"e", "T", "1", "5"⟩)] ["e"] []).1 =
      some (false, "Cardinality restricted on element: " ++ "e")) ↔
      cardinalityRestrictedSpec ⟨"e", "T", "0", "5"⟩ ⟨"e", "T", "1", "5"⟩ = true :=
  C1_cardinality_sentinel (fun _ _ c => ((true, ""), c))
    [("e", ⟨"e", "T", "0", "5"⟩)] [("e", ⟨"e", "T", "1", "5"⟩)] "e"
    ⟨"e", "T", "0", "5"⟩ ⟨"e", "T", "1", "5"⟩ []
    (by decide) (by decide) rfl
    (Or.inr ⟨by decide, by decide⟩) (Or.inr ⟨by decide, by decide⟩)

/-- C4 fails on the code: both versions hold simpleType diggs:S but with
different serialized bodies, yet compare_simpletype leaves compatible at
"Yes" (only restriction_changed is set); the claim demands "No" on any
textual difference. -/
theorem C4_counterexample :
    (compare_simpletype [("diggs:S", "<old/>")] [("diggs:S", "<new/>")]
        "diggs:S" "").compatible = "Yes" ∧
    (compare_simpletype [("diggs:S", "<old/>")] [("diggs:S", "<new/>")]
        "diggs:S" "").restriction_changed = "Yes" ∧
    lookupA [("diggs:S", "<old/>")] "diggs:S" ≠
      (lookupA [("diggs:S", "<new/>")] "diggs:S" : Option String) :=
  ⟨by decide, by decide, by decide⟩

/-- C4 (amended): compare_simpletype marks a simple type incompatible ("No")
exactly when the (possibly mapped) name is absent from the new registry; a
textual difference between the serialized old and new bodies only sets
restriction_changed to "Yes" and a note, leaving compatible at "Yes". -/
theorem C4_simpletype_compatible_field
    (oldSimpletypes newSimpletypes : List (String × String))
    (qualifiedName mappedName : String) :
    ((compare_simpletype oldSimpletypes newSimpletypes qualifiedName
        mappedName).compatible = "No" ↔
      lookupA newSimpletypes
        (if mappedName != "" then mappedName else qualifiedName) = none) ∧
    ((compare_simpletype oldSimpletypes newSimpletypes qualifiedName
        mappedName).restriction_changed = "Yes" ↔
      ∃ s, lookupA newSimpletypes
          (if mappedName != "" then mappedName else qualifiedName) = some s ∧
        (lookupA oldSimpletypes qualifiedName).getD "" ≠ s) := by
  unfold compare_simpletype
  cases hlk : lookupA newSimpletypes
      (if mappedName != "" then mappedName else qualifiedName) with
  | none =>
    dsimp only
    refine ⟨by simp, ?_⟩
    constructor
    · intro habs
      simp at habs
    · rintro ⟨s, hs, -⟩
      exact Option.noConfusion hs
  | some s =>
    dsimp only
    by_cases hd : ((lookupA oldSimpletypes qualifiedName).getD "" != s) = true
    · rw [if_pos hd]
      refine ⟨?_, ?_⟩
      · constructor
        · intro habs
          simp at habs
        · intro habs
          exact Option.noConfusion habs
      · constructor
        · intro _
          exact ⟨s, rfl, by simpa using hd⟩
        · intro _
          rfl
    · rw [if_neg hd]
      refine ⟨?_, ?_⟩
      · constructor
        · intro habs
          simp at habs
        · intro habs
          exact Option.noConfusion habs
      · constructor
        · intro habs
          simp at habs
        · rintro ⟨s2, hs2, hne⟩
          have hss : s2 = s := by
            have h2 := hs2
            simp only [Option.some.injEq] at h2
            exact h2.symm
          rw [hss] at hne
          exact absurd hne (by simpa using hd)

/-- C5 fails on the code: the global declaration of attribute pin carries
use="required", the local reference has no use attribute, yet the resolved
entry gets use "optional" - resolve_attribute_ref hard-codes it and never
reads the global's use. -/
theorem C5_counterexample :
    extract_local_attributes
        [{ name := none, ref := some "pin", ty := none, use := none }]
        [("pin", { name := some "pin", ref := none, ty := some "xs:string",
                   use := some "required" })] =
      [{ name := "pin", ty := "xs:string", use := "optional" }] ∧
    (lookupA ([("pin", { name := some "pin", ref := none, ty := some "xs:string",
                         use := some "required" })] : List (String × AttrNode))
        "pin").map (fun d => d.use) =
      some (some "required") :=
  ⟨by decide, by decide⟩

/-- C5 (amended): for an attribute declared via a truthy ref whose global
declaration is found, the resolved use equals the local use attribute when a
truthy one is present, and is the constant "optional" otherwise - regardless
of any use on the referenced global declaration. -/
theorem C5_attribute_ref_use (node : AttrNode) (allAttrs : List (String × AttrNode))
    (r : String) (d : AttrNode)
    (hr : node.ref = some r) (hrne : r ≠ "")
    (hd : lookupA allAttrs (stripAttrPrefixes (clean_type_name r)) = some d) :
    extract_local_attributes [node] allAttrs =
      [{ name := clean_type_name r, ty := clean_type_name (d.ty.getD ""),
         use := if node.use.getD "" != "" then node.use.getD "" else "optional" }] := by
  unfold extract_local_attributes
  simp only [List.foldl]
  rw [hr]
  simp only [Option.getD_some]
  rw [if_pos (by simpa using hrne : (r != "") = true)]
  unfold resolve_attribute_ref
  rw [hd]
  dsimp only
  by_cases hu : (node.use.getD "" != "") = true
  · rw [if_pos hu, if_pos hu]
    rfl
  · rw [if_neg hu, if_neg hu]
    rfl

theorem C5_witness :
    extract_local_attributes
        [{ name := none, ref := some "id", ty := none, use := some "required" }]
        [("id", { name := some "id", ref := none, ty := some "xs:ID",
                  use := some "optional" })] =
      [{ name := "id", ty := "xs:ID", use := "required" }] :=
  (C5_attribute_ref_use
    ({ name := none, ref := some "id", ty := none, use := some "required" })
    [("id", { name := some "id", ref := none, ty := some "xs:ID",
              use := some "optional" })]
    "id" ({ name := some "id", ref := none, ty := some "xs:ID", use := some "optional" })
    rfl (by decide) (by decide)).trans (by decide)

/-- C6 fails on the code: with mapping Foo -> Bar (bare, unqualified) and a
new registry that does not contain diggs:Bar, analyze still uses the bare
target "Bar" as the mapped name, whereas the claim demands that no mapping
be applied (empty result, comparison under the original name). -/
theorem C6_counterexample :
    compute_mapped_name [("Foo", "Bar")] [] "diggs:Foo" = "Bar" ∧
    compute_mapped_name_claim [("Foo", "Bar")] [] "diggs:Foo" = "" :=
  ⟨by decide, by decide⟩

/-- C6 (amended): after an exact-match miss, a bare-name hit m2 with an
unqualified target is re-qualified with the old name's namespace label and
used when that re-qualified name exists in the new registry; when it does
not exist there, the bare unqualified target m2 itself is used as the
mapped name. -/
theorem C6_mapping_fallback (mappings : List (String × String))
    (newTypeKeys : List String) (qualifiedName m2 : String)
    (h1 : (lookupA mappings qualifiedName).getD "" = "")
    (h2 : (lookupA mappings (lastColonSegment qualifiedName)).getD "" = m2)
    (hm2 : m2 ≠ "") (hq : strContainsChar m2 ':' = false) :
    compute_mapped_name mappings newTypeKeys qualifiedName =
      (if newTypeKeys.contains (firstColonSegment qualifiedName ++ ":" ++ m2) then
        firstColonSegment qualifiedName ++ ":" ++ m2
      else m2) := by
  unfold compute_mapped_name
  rw [h1, h2]
  rw [if_neg (by decide : ¬(("" : String) != "") = true)]
  rw [if_pos (by simp [hm2, hq] : (m2 != "" && !strContainsChar m2 ':') = true)]

theorem C6_witness :
    compute_mapped_name [("Foo", "Bar")] ["diggs:Baz"] "diggs:Foo" = "Bar" :=
  (C6_mapping_fallback [("Foo", "Bar")] ["diggs:Baz"] "diggs:Foo" "Bar"
    (by decide) (by decide) (by decide) (by decide)).trans (by decide)

/-- C7 fails on the code: a single supplied document that does not parse
still yields a successful build with empty registries; the claim demands a
thrown SchemaLoadError when none of the supplied documents parses. -/
theorem C7_counterexample :
    load_schemas [{ parsed := none, nsLabel := "diggs" }] =
      Except.ok { types := [], simpletypes := [], attrs := [] } := rfl

/-- C7 (amended): building the schema index fails (with the thrown error the
spec calls SchemaLoadError) exactly when no schema documents are supplied;
whenever at least one document is supplied the build succeeds and returns
registries, even if no document parses. -/
theorem C7_load_schemas_failure (schemaFiles : List SchemaDoc) :
    ((∃ e, load_schemas schemaFiles = Except.error e) ↔ schemaFiles = []) ∧
    (schemaFiles ≠ [] → ∃ regs, load_schemas schemaFiles = Except.ok regs) := by
  unfold load_schemas
  cases schemaFiles with
  | nil => simp
  | cons f fs => simp
